import Mathlib

/-!
Shallow embedding of the ScamVue backend risk engine (src/main.py): the
phishing and spam indicator extractors built from the regex pattern tables,
the composite-indicator derivation, and the risk-fusion logic of the
`/analyze` endpoint.  Message text is modelled as the list of its character
code points; Python `str.lower` is modelled on the ASCII range, and each
regex pattern of the source is translated into an executable search
predicate over code-point lists.  Confidence scores are modelled as
rationals.
-/

namespace ScamVue

/-- Code points of a string. -/
def cp (s : String) : List Nat := s.data.map Char.toNat

/-- Python `str.lower` on one code point (ASCII range). -/
def lowerCp (c : Nat) : Nat := if 65 ≤ c ∧ c ≤ 90 then c + 32 else c

/-- ASCII uppercase letter, the `[A-Z]` character class. -/
def isUpperCp (c : Nat) : Bool := decide (65 ≤ c ∧ c ≤ 90)

/-- ASCII digit, the `\d` character class. -/
def isDigitCp (c : Nat) : Bool := decide (48 ≤ c ∧ c ≤ 57)

/-- ASCII word character, the `\w` character class: letter, digit or underscore. -/
def isWordCp (c : Nat) : Bool :=
  decide ((65 ≤ c ∧ c ≤ 90) ∨ (97 ≤ c ∧ c ≤ 122) ∨ (48 ≤ c ∧ c ≤ 57) ∨ c = 95)

/-- Does `pat` occur as a contiguous substring of the text? -/
def containsSub (pat : List Nat) : List Nat → Bool
  | [] => pat.isEmpty
  | c :: t => pat.isPrefixOf (c :: t) || containsSub pat t

/-- Do the given literal parts, separated by `.?` gaps (at most one
non-newline character between consecutive parts), match at the start of the
text? -/
def partsHere : List (List Nat) → List Nat → Bool
  | [], _ => true
  | [p], s => p.isPrefixOf s
  | p :: q :: ps, s =>
    p.isPrefixOf s &&
      (partsHere (q :: ps) (s.drop p.length) ||
        match s.drop p.length with
        | [] => false
        | c :: r => decide (c ≠ 10) && partsHere (q :: ps) r)

/-- Search `partsHere` at every position of the text. -/
def searchParts (parts : List (List Nat)) : List Nat → Bool
  | [] => partsHere parts []
  | c :: t => partsHere parts (c :: t) || searchParts parts t

/-- After at least one non-newline character, does `b` start?  Models the
`.+` gap of `gave.+contact`. -/
def plusThen (b : List Nat) : List Nat → Bool
  | [] => false
  | c :: r => decide (c ≠ 10) && (b.isPrefixOf r || plusThen b r)

/-- Search for the literal `a`, then `.+`, then the literal `b`. -/
def searchPlus (a b : List Nat) : List Nat → Bool
  | [] => false
  | c :: t => (a.isPrefixOf (c :: t) && plusThen b ((c :: t).drop a.length)) || searchPlus a b t

/-- Does the literal `p` followed by at least one word character match at the
start of the text?  Models `p\w+`. -/
def wordAfterHere (p : List Nat) (s : List Nat) : Bool :=
  p.isPrefixOf s &&
    match s.drop p.length with
    | [] => false
    | c :: _ => isWordCp c

/-- Search `wordAfterHere` at every position of the text. -/
def searchWordAfter (p : List Nat) : List Nat → Bool
  | [] => wordAfterHere p []
  | c :: t => wordAfterHere p (c :: t) || searchWordAfter p t

/-- Search for `\d+% off`: a match exists iff some digit is immediately
followed by "% off". -/
def searchDigitPercentOff : List Nat → Bool
  | [] => false
  | c :: t => (isDigitCp c && (cp "% off").isPrefixOf t) || searchDigitPercentOff t

/-- Run-length scan for consecutive uppercase letters; `k` counts the letters
seen so far in the current run. -/
def upperRunAux : List Nat → Nat → Bool
  | [], _ => false
  | c :: t, k =>
    if isUpperCp c then (if 3 ≤ k then true else upperRunAux t (k + 1))
    else upperRunAux t 0

/-- Four or more consecutive ASCII uppercase letters: the `[A-Z]{4,}` pattern. -/
def hasRun4Upper (s : List Nat) : Bool := upperRunAux s 0

/-- Three or more consecutive occurrences of the same non-newline character:
the backreference pattern `(.)\1{2,}`. -/
def hasTriple : List Nat → Bool
  | a :: b :: c :: t => (decide (a ≠ 10) && a == b && b == c) || hasTriple (b :: c :: t)
  | _ => false

/-- Literal-substring alternative of a regex alternation. -/
def litp (s : String) (t : List Nat) : Bool := containsSub (cp s) t

/-- Two literals separated by `.?`. -/
def gap1 (a b : String) (t : List Nat) : Bool := searchParts [cp a, cp b] t

/-- Three literals separated by `.?` gaps. -/
def gap3 (a b c : String) (t : List Nat) : Bool := searchParts [cp a, cp b, cp c] t

/-- Two literals separated by `.+`. -/
def plus1 (a b : String) (t : List Nat) : Bool := searchPlus (cp a) (cp b) t

/-- Literal followed by `\w+`. -/
def wordAfterP (s : String) (t : List Nat) : Bool := searchWordAfter (cp s) t

/-- Alternation: any of the alternatives matches. -/
def anyOf (ps : List (List Nat → Bool)) (t : List Nat) : Bool := ps.any (fun p => p t)

/-- The `phishing_patterns` table of `check_phishing_indicators`, one entry
per category, in source order; each predicate is the translation of the
regex on the right of the entry. -/
def phishing_patterns : List (String × (List Nat → Bool)) :=
  [("urgency", anyOf [litp "urgent", litp "immediate", litp "quickly", litp "asap",
      litp "emergency", litp "limited time", litp "act now", litp "expire",
      litp "deadline", litp "today?", litp "right now"]),
   ("credentials", anyOf [litp "password", litp "login", litp "credential", litp "account",
      litp "verify", litp "confirmation", litp "security", litp "authenticate"]),
   ("financial", anyOf [litp "bank", gap1 "credit" "card", litp "$", litp "money",
      litp "payment", litp "transfer", litp "wallet", litp "bitcoin", litp "crypto",
      litp "eth", litp "investment"]),
   ("personal_info", anyOf [litp "ssn", litp "social security", litp "address",
      gap1 "birth" "date", litp "passport", litp "license", gap1 "id" "number"]),
   ("suspicious_links", anyOf [litp "click", litp "link", litp "url", litp "website",
      litp "site", litp "http", litp "bit.ly", litp "tiny.cc", gap1 "sign" "in"]),
   ("threats", anyOf [litp "suspend", litp "disabled", litp "closed", litp "blocked",
      litp "terminated", litp "locked", litp "restricted", litp "limited"]),
   ("prizes", anyOf [litp "won", litp "winner", litp "prize", litp "reward", litp "gift",
      litp "congratulations", litp "lucky", litp "selected"]),
   ("pressure", anyOf [litp "only", litp "limited", litp "exclusive",
      gap1 "special" "offer", gap1 "one" "time", gap1 "today" "only"]),
   ("unsolicited_contact", anyOf [litp "recruiter", plus1 "gave" "contact", litp "referred",
      litp "mentioned you", litp "that\x27s why I contacted", litp "reaching out",
      litp "got your contact"]),
   ("job_bait", anyOf [litp "job opportunity", litp "work opportunity", litp "position",
      litp "career", litp "hiring", litp "recruitment", litp "employment"]),
   ("time_pressure", anyOf [litp "today", litp "would you be available", litp "discuss",
      litp "share with you", litp "opportunity"]),
   ("impersonation", anyOf [wordAfterP "I am ", litp "my name is", wordAfterP "this is ",
      litp "representing", litp "on behalf"]),
   ("vague_opportunity", anyOf [litp "information to share", litp "discuss the work",
      litp "opportunity", litp "details", litp "interested in", litp "potential"])]

/-- The `spam_patterns` table of `check_spam_indicators`, in source order. -/
def spam_patterns : List (String × (List Nat → Bool)) :=
  [("marketing", anyOf [litp "buy", litp "sell", litp "discount", litp "offer", litp "deal",
      litp "price", litp "sale", litp "shop", litp "store", litp "product"]),
   ("promotion", anyOf [litp "free", litp "bonus", litp "extra", litp "save",
      litp "discount", searchDigitPercentOff]),
   ("mass_marketing", anyOf [litp "subscribe", litp "unsubscribe", litp "newsletter",
      gap1 "mailing" "list"]),
   ("excessive_punctuation", anyOf [litp "!!", litp "??"]),
   ("all_caps", hasRun4Upper),
   ("repetitive", hasTriple),
   ("spam_words", anyOf [gap1 "weight" "loss", litp "earn", litp "income",
      gap3 "work" "from" "home", gap1 "make" "money", gap1 "business" "opportunity"])]

/-- Names of the base phishing categories whose pattern matches the
(lowercased) text, in table order. -/
def basePhishingMatches (t : List Nat) : List String :=
  (phishing_patterns.filter (fun pr => pr.2 t)).map Prod.fst

/-- First composite check of `check_phishing_indicators`: add
`suspicious_recruitment` when both of its components matched. -/
def withRecruit (base : List String) : List String :=
  if "unsolicited_contact" ∈ base ∧ "job_bait" ∈ base then
    base ++ ["suspicious_recruitment"]
  else base

/-- Both composite checks of `check_phishing_indicators`. -/
def addComposites (base : List String) : List String :=
  if "time_pressure" ∈ withRecruit base ∧ "vague_opportunity" ∈ withRecruit base then
    withRecruit base ++ ["pressure_tactics"]
  else withRecruit base

/-- `check_phishing_indicators` of src/main.py: lowercase the text, collect
the matching base categories, then derive the composite indicators. -/
def check_phishing_indicators (text : String) : List String :=
  addComposites (basePhishingMatches ((cp text).map lowerCp))

/-- `check_spam_indicators` of src/main.py. -/
def check_spam_indicators (text : String) : List String :=
  (spam_patterns.filter (fun pr => pr.2 ((cp text).map lowerCp))).map Prod.fst

/-- All category names the phishing extractor can emit. -/
def phishing_category_names : List String :=
  phishing_patterns.map Prod.fst ++ ["suspicious_recruitment", "pressure_tactics"]

/-- All category names the spam extractor can emit. -/
def spam_category_names : List String := spam_patterns.map Prod.fst

/-- Output of the external zero-shot classifier: labels ranked by score,
index-aligned with the scores. -/
structure ClassificationResult where
  labels : List String
  scores : List ℚ

/-- The verdict object returned by the `/analyze` endpoint. -/
structure RiskVerdict where
  risk : String
  confidence : ℚ
  primary_indicator : String
  secondary_indicator : String
  details_phishing_indicators : List String
  details_spam_indicators : List String
  details_ml_classification : String
  details_ml_confidence : ℚ

/-- Failure of the risk fusion: the classification result carried no
labels or no scores. -/
inductive AnalyzeError where
  | invalidClassificationInput
deriving DecidableEq

/-- Python substring test `needle in hay` on raw (non-lowercased) strings. -/
def strContains (hay needle : String) : Bool := containsSub (cp needle) (cp hay)

/-- The `recruitment_indicators` set of `analyze_message`, as a duplicate-free
list. -/
def recruitment_indicators : List String :=
  ["unsolicited_contact", "job_bait", "time_pressure",
   "vague_opportunity", "suspicious_recruitment", "pressure_tactics"]

/-- Risk level and confidence after the first if/elif/elif chain of
`analyze_message` (lines 137-145), before the final high-risk override. -/
def fuseStep (P S : List String) (label : String) (b : ℚ) : String × ℚ :=
  if 2 ≤ (recruitment_indicators.filter (fun n => P.contains n)).length then
    ("phishing", max b (0.85 : ℚ))
  else if 2 ≤ P.length ∨ strContains label "phishing" = true ∨ strContains label "scam" = true then
    ("phishing", max b (if 3 ≤ P.length then (0.8 : ℚ) else (0.6 : ℚ)))
  else if 2 ≤ S.length ∨ strContains label "spam" = true ∨ strContains label "advertisement" = true then
    ("spam", max b (if 3 ≤ S.length then (0.7 : ℚ) else (0.5 : ℚ)))
  else ("legitimate", b)

/-- Full risk determination of `analyze_message` (lines 120-150): the
if/elif/elif chain followed by the unconditional high-risk combination
check, starting from risk "legitimate" and the classifier top score. -/
def fuse (P S : List String) (label : String) (b : ℚ) : String × ℚ :=
  if "unsolicited_contact" ∈ P ∧ "vague_opportunity" ∈ P then
    ("phishing", max (fuseStep P S label b).2 (0.9 : ℚ))
  else fuseStep P S label b

/-- The `/analyze` endpoint body: extract indicators, read the classifier
result, fuse, and build the response.  Reading `scores[0]` / `labels[0]` of
an empty result raises, so no verdict is produced in that case. -/
def analyze_message (message : String) (result : ClassificationResult) :
    Except AnalyzeError RiskVerdict :=
  let phishing_indicators := check_phishing_indicators message
  let spam_indicators := check_spam_indicators message
  match result.scores, result.labels with
  | b :: _, label0 :: _ =>
    let rc := fuse phishing_indicators spam_indicators label0 b
    let detected := phishing_indicators ++ spam_indicators
    Except.ok
      { risk := rc.1
        confidence := rc.2
        primary_indicator := label0
        secondary_indicator := String.intercalate ", " (detected.take 3)
        details_phishing_indicators := phishing_indicators
        details_spam_indicators := spam_indicators
        details_ml_classification := label0
        details_ml_confidence := b }
  | _, _ => Except.error AnalyzeError.invalidClassificationInput

/-- End-to-end scenario B text of the specification. -/
def scenarioB : String := "FREE!! Buy now, save 50% off, subscribe to our newsletter!!!"

/-- End-to-end scenario C text of the specification. -/
def scenarioC : String :=
  "Hi, I am a recruiter, I got your contact and wanted to discuss a job opportunity today"

/-! Helper lemmas about the extractors. -/

lemma containsStr_iff (l : List String) (a : String) : l.contains a = true ↔ a ∈ l := by
  show List.elem a l = true ↔ a ∈ l
  exact List.elem_iff

lemma mem_basePhishing {t : List Nat} {n : String} (h : n ∈ basePhishingMatches t) :
    n ∈ phishing_patterns.map Prod.fst := by
  unfold basePhishingMatches at h
  obtain ⟨pr, hpr, rfl⟩ := List.mem_map.mp h
  exact List.mem_map_of_mem _ (List.mem_filter.mp hpr).1

lemma sr_not_mem_base (t : List Nat) : "suspicious_recruitment" ∉ basePhishingMatches t := by
  intro h
  have h2 := mem_basePhishing h
  revert h2
  decide

lemma mem_withRecruit {b : List String} {n : String} (h : n ∈ withRecruit b) :
    n ∈ b ∨ n = "suspicious_recruitment" := by
  unfold withRecruit at h
  split at h
  · rcases List.mem_append.mp h with h1 | h1
    · exact Or.inl h1
    · exact Or.inr (List.mem_singleton.mp h1)
  · exact Or.inl h

lemma mem_withRecruit_of_mem {b : List String} {n : String} (h : n ∈ b) : n ∈ withRecruit b := by
  unfold withRecruit
  split
  · exact List.mem_append_left _ h
  · exact h

lemma mem_addComposites {b : List String} {n : String} (h : n ∈ addComposites b) :
    n ∈ b ∨ n = "suspicious_recruitment" ∨ n = "pressure_tactics" := by
  unfold addComposites at h
  split at h
  · rcases List.mem_append.mp h with h1 | h1
    · rcases mem_withRecruit h1 with h2 | h2
      · exact Or.inl h2
      · exact Or.inr (Or.inl h2)
    · exact Or.inr (Or.inr (List.mem_singleton.mp h1))
  · rcases mem_withRecruit h with h2 | h2
    · exact Or.inl h2
    · exact Or.inr (Or.inl h2)

lemma sr_mem_withRecruit_iff {b : List String} (hsr : "suspicious_recruitment" ∉ b) :
    ("suspicious_recruitment" ∈ withRecruit b ↔
      "unsolicited_contact" ∈ b ∧ "job_bait" ∈ b) := by
  unfold withRecruit
  split
  · rename_i hc
    exact iff_of_true (List.mem_append_right _ (List.mem_singleton.mpr rfl)) hc
  · rename_i hc
    exact iff_of_false hsr hc

lemma sr_mem_addComposites_iff {b : List String} (hsr : "suspicious_recruitment" ∉ b) :
    ("suspicious_recruitment" ∈ addComposites b ↔
      "unsolicited_contact" ∈ b ∧ "job_bait" ∈ b) := by
  rw [← sr_mem_withRecruit_iff hsr]
  unfold addComposites
  split
  · constructor
    · intro h
      rcases List.mem_append.mp h with h1 | h1
      · exact h1
      · exact absurd (List.mem_singleton.mp h1) (by decide)
    · exact fun h => List.mem_append_left _ h
  · exact Iff.rfl

lemma mem_addComposites_iff_of_base {b : List String} {n : String}
    (h1 : n ≠ "suspicious_recruitment") (h2 : n ≠ "pressure_tactics") :
    (n ∈ addComposites b ↔ n ∈ b) := by
  constructor
  · intro h
    rcases mem_addComposites h with h3 | h3 | h3
    · exact h3
    · exact absurd h3 h1
    · exact absurd h3 h2
  · intro h
    unfold addComposites
    have hw := mem_withRecruit_of_mem (b := b) h
    split
    · exact List.mem_append_left _ hw
    · exact hw

lemma lowerCp_not_upper (c : Nat) : isUpperCp (lowerCp c) = false := by
  unfold lowerCp isUpperCp
  split
  · rename_i h
    simp only [decide_eq_false_iff_not]
    omega
  · rename_i h
    simp only [decide_eq_false_iff_not]
    omega

lemma upperRunAux_eq_false :
    ∀ (l : List Nat), (∀ c ∈ l, isUpperCp c = false) → ∀ k, upperRunAux l k = false := by
  intro l
  induction l with
  | nil => intro _ k; rfl
  | cons c t ih =>
    intro h k
    have hc : isUpperCp c = false := h c (List.mem_cons_self _ _)
    unfold upperRunAux
    rw [hc]
    simp only [Bool.false_eq_true, if_false]
    exact ih (fun d hd => h d (List.mem_cons_of_mem _ hd)) 0

/-! Helper lemmas about the fusion step. -/

lemma fuseStep_conf_ge (P S : List String) (label : String) (b : ℚ) :
    b ≤ (fuseStep P S label b).2 := by
  unfold fuseStep
  split
  · exact le_max_left _ _
  · split
    · exact le_max_left _ _
    · split
      · exact le_max_left _ _
      · exact le_refl b

lemma fuseStep_recruit {P : List String} (S : List String) (label : String) (b : ℚ)
    (h : 2 ≤ (recruitment_indicators.filter (fun n => P.contains n)).length) :
    fuseStep P S label b = ("phishing", max b (0.85 : ℚ)) := by
  unfold fuseStep
  rw [if_pos h]

lemma fuse_recruit {P : List String} (S : List String) (label : String) (b : ℚ)
    (h : 2 ≤ (recruitment_indicators.filter (fun n => P.contains n)).length) :
    (fuse P S label b).1 = "phishing" ∧ (0.85 : ℚ) ≤ (fuse P S label b).2 := by
  unfold fuse
  rw [fuseStep_recruit S label b h]
  split
  · exact ⟨rfl, le_trans (le_max_right b (0.85 : ℚ)) (le_max_left _ _)⟩
  · exact ⟨rfl, le_max_right _ _⟩

lemma fuseStep_legit {P S : List String} {label : String} {b : ℚ}
    (h : (fuseStep P S label b).1 = "legitimate") : (fuseStep P S label b).2 = b := by
  unfold fuseStep at h ⊢
  by_cases h1 : 2 ≤ (recruitment_indicators.filter (fun n => P.contains n)).length
  · rw [if_pos h1] at h
    simp at h
  · rw [if_neg h1] at h ⊢
    by_cases h2 : 2 ≤ P.length ∨ strContains label "phishing" = true ∨
        strContains label "scam" = true
    · rw [if_pos h2] at h
      simp at h
    · rw [if_neg h2] at h ⊢
      by_cases h3 : 2 ≤ S.length ∨ strContains label "spam" = true ∨
          strContains label "advertisement" = true
      · rw [if_pos h3] at h
        simp at h
      · rw [if_neg h3]

lemma fuse_nil_spam (S : List String) (label : String) (b : ℚ)
    (h3 : 3 ≤ S.length)
    (hph : strContains label "phishing" = false)
    (hsc : strContains label "scam" = false) :
    (fuse [] S label b).1 = "spam" ∧ (0.7 : ℚ) ≤ (fuse [] S label b).2 := by
  have hov : ¬("unsolicited_contact" ∈ ([] : List String) ∧
      "vague_opportunity" ∈ ([] : List String)) := by
    rintro ⟨hc, -⟩
    exact List.not_mem_nil _ hc
  have hstep : fuseStep [] S label b = ("spam", max b (0.7 : ℚ)) := by
    unfold fuseStep
    have hc1 : ¬ (2 ≤ (recruitment_indicators.filter
        (fun n => (([] : List String)).contains n)).length) := by decide
    have hc2 : ¬ (2 ≤ ([] : List String).length ∨ strContains label "phishing" = true ∨
        strContains label "scam" = true) := by
      rintro (hh | hh | hh)
      · simp at hh
      · rw [hph] at hh
        exact Bool.noConfusion hh
      · rw [hsc] at hh
        exact Bool.noConfusion hh
    have hc3 : 2 ≤ S.length ∨ strContains label "spam" = true ∨
        strContains label "advertisement" = true := Or.inl (by omega)
    rw [if_neg hc1, if_neg hc2, if_pos hc3, if_pos h3]
  unfold fuse
  rw [if_neg hov, hstep]
  exact ⟨rfl, le_max_right _ _⟩

/-! Claim theorems. -/

/-- C1: for every message whose phishing match set contains at least two of
the six recruitment indicators, and every well-formed (non-empty)
classification result, the fused verdict has risk "phishing" and confidence
at least 0.85, whatever the classifier labels and scores are. -/
theorem recruitment_forces_phishing (text label0 : String) (ls : List String)
    (c0 : ℚ) (cs : List ℚ)
    (h : 2 ≤ (recruitment_indicators.filter
      (fun n => (check_phishing_indicators text).contains n)).length) :
    ∃ v, analyze_message text ⟨label0 :: ls, c0 :: cs⟩ = Except.ok v ∧
      v.risk = "phishing" ∧ (0.85 : ℚ) ≤ v.confidence := by
  refine ⟨_, rfl, ?_, ?_⟩
  · exact (fuse_recruit (check_spam_indicators text) label0 c0 h).1
  · exact (fuse_recruit (check_spam_indicators text) label0 c0 h).2

/-- Witness for C1: the scenario-C text has six recruitment indicators, and
with an arbitrary classifier answer the verdict is phishing at 0.85 or more. -/
theorem recruitment_forces_phishing_app :
    ∃ v, analyze_message scenarioC
      ⟨["suspicious recruitment message"], [(1 : ℚ) / 2]⟩ = Except.ok v ∧
      v.risk = "phishing" ∧ (0.85 : ℚ) ≤ v.confidence :=
  recruitment_forces_phishing scenarioC "suspicious recruitment message" []
    ((1 : ℚ) / 2) [] (by decide)

/-- C2: for every phishing set, spam set, classifier top label and top score,
the fused confidence is at least the top score; fusion only ever raises the
confidence. -/
theorem fused_confidence_ge_base (P S : List String) (label : String) (b : ℚ) :
    b ≤ (fuse P S label b).2 := by
  unfold fuse
  split
  · exact le_trans (fuseStep_conf_ge P S label b) (le_max_left _ _)
  · exact fuseStep_conf_ge P S label b

/-- C3: for every input text, `suspicious_recruitment` is in the phishing
match set exactly when both `unsolicited_contact` and `job_bait` are. -/
theorem suspicious_recruitment_iff_components (text : String) :
    ("suspicious_recruitment" ∈ check_phishing_indicators text ↔
      "unsolicited_contact" ∈ check_phishing_indicators text ∧
        "job_bait" ∈ check_phishing_indicators text) := by
  unfold check_phishing_indicators
  rw [sr_mem_addComposites_iff (sr_not_mem_base _),
    mem_addComposites_iff_of_base (by decide) (by decide),
    mem_addComposites_iff_of_base (by decide) (by decide)]

/-- C4 counterexample: the scenario-C text does not match the
`impersonation` category, because its case-sensitive alternatives cannot
occur in the lowercased text. -/
theorem scenario_c_impersonation_not_matched :
    "impersonation" ∉ check_phishing_indicators scenarioC := by decide

/-- C4 amended: the scenario-C text matches `unsolicited_contact`,
`job_bait`, `time_pressure` and `vague_opportunity` (not `impersonation`),
both composites fire, and for every classifier output the fused verdict is
phishing with confidence at least 0.85. -/
theorem scenario_c_matches_and_verdict :
    check_phishing_indicators scenarioC =
      ["unsolicited_contact", "job_bait", "time_pressure", "vague_opportunity",
        "suspicious_recruitment", "pressure_tactics"] ∧
    ∀ (label : String) (b : ℚ),
      (fuse (check_phishing_indicators scenarioC) (check_spam_indicators scenarioC)
        label b).1 = "phishing" ∧
      (0.85 : ℚ) ≤ (fuse (check_phishing_indicators scenarioC)
        (check_spam_indicators scenarioC) label b).2 := by
  refine ⟨by decide, ?_⟩
  intro label b
  exact fuse_recruit (check_spam_indicators scenarioC) label b (by decide)

/-- C5 counterexample: the scenario-B text does not match `all_caps`, since
the text is lowercased before matching. -/
theorem scenario_b_all_caps_not_matched :
    "all_caps" ∉ check_spam_indicators scenarioB := by decide

/-- C5 amended: the scenario-B text matches `marketing`, `promotion`,
`mass_marketing`, `excessive_punctuation` and `repetitive` (not `all_caps`),
and whenever the top classifier label contains neither "phishing" nor
"scam" the fused verdict is spam with confidence at least 0.7. -/
theorem scenario_b_matches_and_verdict :
    check_spam_indicators scenarioB =
      ["marketing", "promotion", "mass_marketing", "excessive_punctuation",
        "repetitive"] ∧
    ∀ (label : String) (b : ℚ),
      strContains label "phishing" = false → strContains label "scam" = false →
      (fuse (check_phishing_indicators scenarioB) (check_spam_indicators scenarioB)
        label b).1 = "spam" ∧
      (0.7 : ℚ) ≤ (fuse (check_phishing_indicators scenarioB)
        (check_spam_indicators scenarioB) label b).2 := by
  refine ⟨by decide, ?_⟩
  intro label b hph hsc
  have hP : check_phishing_indicators scenarioB = [] := by decide
  rw [hP]
  exact fuse_nil_spam (check_spam_indicators scenarioB) label b (by decide) hph hsc

/-- Witness for C5: with top label "spam advertisement" and top score 1/2
the scenario-B verdict is spam at confidence at least 0.7. -/
theorem scenario_b_matches_and_verdict_app :
    (fuse (check_phishing_indicators scenarioB) (check_spam_indicators scenarioB)
      "spam advertisement" ((1 : ℚ) / 2)).1 = "spam" ∧
    (0.7 : ℚ) ≤ (fuse (check_phishing_indicators scenarioB)
      (check_spam_indicators scenarioB) "spam advertisement" ((1 : ℚ) / 2)).2 :=
  scenario_b_matches_and_verdict.2 "spam advertisement" ((1 : ℚ) / 2)
    (by decide) (by decide)

/-- C6 counterexample: the phishing taxonomy does not have nine base
categories. -/
theorem phishing_base_category_count_not_nine :
    (phishing_patterns.map Prod.fst).length ≠ 9 := by decide

/-- C6 amended: the phishing taxonomy has exactly thirteen base categories,
the named list, in table order. -/
theorem phishing_base_categories_thirteen :
    phishing_patterns.map Prod.fst =
      ["urgency", "credentials", "financial", "personal_info", "suspicious_links",
        "threats", "prizes", "pressure", "unsolicited_contact", "job_bait",
        "time_pressure", "impersonation", "vague_opportunity"] ∧
    (phishing_patterns.map Prod.fst).length = 13 := ⟨by decide, by decide⟩

/-- C7: extraction is total; the empty string yields empty match sets, and
every emitted indicator name belongs to the fixed taxonomy. -/
theorem extraction_total_and_empty :
    check_phishing_indicators "" = [] ∧ check_spam_indicators "" = [] ∧
    (∀ (text n : String), n ∈ check_phishing_indicators text →
      n ∈ phishing_category_names) ∧
    (∀ (text n : String), n ∈ check_spam_indicators text →
      n ∈ spam_category_names) := by
  refine ⟨by decide, by decide, ?_, ?_⟩
  · intro text n h
    unfold check_phishing_indicators at h
    unfold phishing_category_names
    rcases mem_addComposites h with h1 | h1 | h1
    · exact List.mem_append_left _ (mem_basePhishing h1)
    · subst h1
      decide
    · subst h1
      decide
  · intro text n h
    unfold check_spam_indicators at h
    unfold spam_category_names
    obtain ⟨pr, hpr, rfl⟩ := List.mem_map.mp h
    exact List.mem_map_of_mem _ (List.mem_filter.mp hpr).1

/-- Witness for C7: concrete indicators emitted on the scenario texts are
taxonomy names. -/
theorem extraction_total_and_empty_app :
    "job_bait" ∈ phishing_category_names ∧ "repetitive" ∈ spam_category_names :=
  ⟨extraction_total_and_empty.2.2.1 scenarioC "job_bait" (by decide),
    extraction_total_and_empty.2.2.2 scenarioB "repetitive" (by decide)⟩

/-- C8: an empty or malformed classification result (no labels or no scores)
makes the analysis return the invalid-classification error, never a
verdict. -/
theorem empty_classification_rejected (text : String) (r : ClassificationResult)
    (h : r.labels = [] ∨ r.scores = []) :
    analyze_message text r = Except.error AnalyzeError.invalidClassificationInput := by
  obtain ⟨ls, ss⟩ := r
  rcases h with h | h
  · subst h
    cases ss <;> rfl
  · subst h
    cases ls <;> rfl

/-- Witness for C8: the fully empty classification result is rejected. -/
theorem empty_classification_rejected_app :
    analyze_message "" ⟨[], []⟩ = Except.error AnalyzeError.invalidClassificationInput :=
  empty_classification_rejected "" ⟨[], []⟩ (Or.inl rfl)

/-- C9: for every input text the `all_caps` category is never emitted: the
text is lowercased before matching and `[A-Z]{4,}` cannot match lowercased
text. -/
theorem all_caps_never_matches (text : String) :
    (check_spam_indicators text).contains "all_caps" = false := by
  rw [← Bool.not_eq_true, containsStr_iff]
  intro hm
  unfold check_spam_indicators at hm
  obtain ⟨pr, hpr, hname⟩ := List.mem_map.mp hm
  obtain ⟨hin, hmatch⟩ := List.mem_filter.mp hpr
  have hlow : ∀ c ∈ (cp text).map lowerCp, isUpperCp c = false := by
    intro c hc
    obtain ⟨d, _, rfl⟩ := List.mem_map.mp hc
    exact lowerCp_not_upper d
  simp only [spam_patterns, List.mem_cons, List.not_mem_nil, or_false] at hin
  rcases hin with rfl | rfl | rfl | rfl | rfl | rfl | rfl
  · exact absurd hname (by decide)
  · exact absurd hname (by decide)
  · exact absurd hname (by decide)
  · exact absurd hname (by decide)
  · have hm2 : hasRun4Upper ((cp text).map lowerCp) = true := hmatch
    rw [hasRun4Upper, upperRunAux_eq_false _ hlow 0] at hm2
    exact Bool.noConfusion hm2
  · exact absurd hname (by decide)
  · exact absurd hname (by decide)

/-- C10: whenever the fused verdict is "legitimate", its confidence is
exactly the classifier top score. -/
theorem legitimate_keeps_base_confidence (P S : List String) (label : String) (b : ℚ)
    (h : (fuse P S label b).1 = "legitimate") : (fuse P S label b).2 = b := by
  unfold fuse at h ⊢
  by_cases hov : "unsolicited_contact" ∈ P ∧ "vague_opportunity" ∈ P
  · rw [if_pos hov] at h
    simp at h
  · rw [if_neg hov] at h ⊢
    exact fuseStep_legit h

/-- Witness for C10: with no indicators and a casual-chat label the verdict
is legitimate and the confidence is the top score. -/
theorem legitimate_keeps_base_confidence_app :
    (fuse [] [] "casual chat message" ((3 : ℚ) / 5)).2 = (3 : ℚ) / 5 :=
  legitimate_keeps_base_confidence [] [] "casual chat message" ((3 : ℚ) / 5)
    (by decide)

end ScamVue
